import Mathlib

/-!
Verification of the NDVI time-series / DEM REST service.

Shallow embedding of the JavaScript source under `src/`:
JavaScript values are modelled by `JsVal` (with `undefined`, `null`, `NaN` and
the two infinities as explicit constructors, numbers as exact rationals),
pure service functions become Lean functions, and the stateful token cache
becomes explicit state passing that also records the outbound network
requests it issues.  Floating-point arithmetic in the source is idealised
as exact rational arithmetic; `Math.round(x*100)/100` is modelled by
`round2` below, and the rounded square root used for the standard
deviation by `sqrtRound2`.
-/

/-- Model of a JavaScript/JSON value as it appears in request bodies and
remote responses.  `undefined` models `undefined`, `nan` models `NaN`, and
`inf`/`ninf` model the two IEEE infinities; finite numbers are exact
rationals. -/
inductive JsVal where
  | undefined
  | null
  | nan
  | inf
  | ninf
  | bool (b : Bool)
  | num (q : ℚ)
  | str (s : String)
  | arr (xs : List JsVal)
  | obj (kvs : List (String × JsVal))

/-- JavaScript truthiness test (`!v` in the source): `undefined`, `null`,
`NaN`, `false`, `0` and `""` are falsy; every object/array is truthy. -/
def jsFalsy : JsVal → Bool
  | .undefined => true
  | .null => true
  | .nan => true
  | .bool b => !b
  | .num q => q == 0
  | .str s => s == ""
  | _ => false

/-- Property access `v.k`: defined on objects, `undefined` otherwise
(the source only dereferences non-objects behind `?.` or prior checks). -/
def getField (v : JsVal) (k : String) : JsVal :=
  match v with
  | .obj kvs => (kvs.lookup k).getD .undefined
  | _ => .undefined

/-- The `a || b` idiom of the source: `b` when `a` is falsy. -/
def jsOr (a b : JsVal) : JsVal := if jsFalsy a then b else a

/-- The `.length` of a value: arrays and strings have one, other values
yield `undefined` (modelled as `none`, which makes `i < length` false). -/
def jsLen : JsVal → Option ℕ
  | .arr xs => some xs.length
  | .str s => some s.length
  | _ => none

/-- The `v.length === 0` test used on the coordinate arrays. -/
def jsLenIsZero (v : JsVal) : Bool :=
  match jsLen v with
  | some n => n == 0
  | none => false

/-- Index access `v[i]` for arrays (strings and others are never indexed
on the paths the claims exercise; they yield `undefined`). -/
def jsIndex (v : JsVal) (i : ℕ) : JsVal :=
  match v with
  | .arr xs => xs.getD i .undefined
  | _ => .undefined

/-- Numeric coercion used inside `Math.round(v * k)` and `Math.min`:
`null ↦ 0`, booleans to `0`/`1`, numbers to themselves; `undefined`, `NaN`
and non-numeric objects coerce to `NaN` (`none`).  String-to-number
coercion is modelled as `NaN`; no claim exercises numeric strings. -/
def jsToNumber : JsVal → Option ℚ
  | .num q => some q
  | .null => some 0
  | .bool b => some (if b then 1 else 0)
  | _ => none

/-- Model of JavaScript `Math.round q` (round half toward positive
infinity, i.e. `⌊q + 1/2⌋`). -/
def jsMathRound (q : ℚ) : ℤ := ⌊q + 1/2⌋

/-- Model of `Math.round(q * 100) / 100` from the source. -/
def round2 (q : ℚ) : ℚ := (jsMathRound (q * 100) : ℚ) / 100

/-- Model of `Math.round(q * 1000000) / 1000000` from the source. -/
def round6 (q : ℚ) : ℚ := (jsMathRound (q * 1000000) : ℚ) / 1000000

/-- Rounding of a JavaScript value through `Math.round(v * k) / k`:
coercible values are rounded, everything else becomes `NaN`. -/
def jsRound6 (v : JsVal) : JsVal :=
  match jsToNumber v with
  | some q => .num (round6 q)
  | none => .nan

/-- Model of `Math.round(Math.sqrt v * 100) / 100` for a nonnegative
rational `v` (the population variance): the numerator is the integer
nearest to `100·√v`, computed exactly from `Nat.sqrt`.  For `v = a/b` the
nearest integer is the least `k` with `40000·a·b < ((2k+1)·b)²`, which is
`(Nat.sqrt (40000·a·b) / b + 1) / 2`. -/
def sqrtRound2 (v : ℚ) : ℚ :=
  ((Nat.sqrt (40000 * v.num.toNat * v.den) / v.den + 1) / 2 : ℕ) / 100

/-! ## GeometryOps: bounding box (`bboxFromPolygon` in openeoService.js) -/

/-- A bounding box as produced by `bboxFromPolygon`. -/
structure BBox where
  west : ℚ
  south : ℚ
  east : ℚ
  north : ℚ
deriving DecidableEq

/-- One iteration of the `for (const [lon, lat] of ring)` loop: each of the
four `if` statements of the source, applied to the accumulator. -/
def bboxStep (b : BBox) (p : ℚ × ℚ) : BBox :=
  { west := if p.1 < b.west then p.1 else b.west
    south := if p.2 < b.south then p.2 else b.south
    east := if p.1 > b.east then p.1 else b.east
    north := if p.2 > b.north then p.2 else b.north }

/-- Model of `bboxFromPolygon(polygon)`: take the first ring
(`polygon?.[0] || []`) and fold the running min/max over its points.  The
source initialises the accumulator with `±Infinity`; on a nonempty ring
the first iteration overwrites all four fields with the first point, which
is how the fold below starts, and the degenerate all-infinite result of an
empty ring is modelled as `none`. -/
def bboxFromPolygon (polygon : List (List (ℚ × ℚ))) : Option BBox :=
  match polygon.headD [] with
  | [] => none
  | p :: ps => some (ps.foldl bboxStep ⟨p.1, p.2, p.1, p.2⟩)

/-- Spec-side description of the bounding box (for the refinement claim):
the componentwise minima and maxima of the longitudes and latitudes. -/
def ringBBoxSpec : List (ℚ × ℚ) → Option BBox
  | [] => none
  | p :: ps =>
    some
      { west := (ps.map Prod.fst).foldl min p.1
        south := (ps.map Prod.snd).foldl min p.2
        east := (ps.map Prod.fst).foldl max p.1
        north := (ps.map Prod.snd).foldl max p.2 }

/-- Well-formedness of an optional bounding box: present with
`west ≤ east` and `south ≤ north`. -/
def bboxOK : Option BBox → Bool
  | some b => decide (b.west ≤ b.east) && decide (b.south ≤ b.north)
  | none => false

/-! ## Request validation (validation/schema.js, Joi schemas)

Joi is modelled post-coercion: a value passes `Joi.number()` iff it is a
finite number (`NaN` and the infinities are rejected by Joi, and JSON
bodies cannot carry them anyway).  A `Joi.object` schema rejects unknown
keys, which Joi does by default. -/

/-- `Joi.number()`: accepts exactly finite numbers. -/
def joiNumberOK : JsVal → Bool
  | .num _ => true
  | _ => false

/-- `coordinateSchema = Joi.array().items(Joi.number()).length(2)`. -/
def coordinatePairOK : JsVal → Bool
  | .arr xs => xs.length == 2 && xs.all joiNumberOK
  | _ => false

/-- `linearRingSchema = Joi.array().items(coordinateSchema).min(3)`. -/
def linearRingOK : JsVal → Bool
  | .arr pts => decide (3 ≤ pts.length) && pts.all coordinatePairOK
  | _ => false

/-- `Joi.array().items(linearRingSchema)` for the `coordinates` field. -/
def coordinatesOK : JsVal → Bool
  | .arr rings => rings.all linearRingOK
  | _ => false

/-- Model of `ndviRequestSchema.validate`: `start_date` and `end_date` are
required and Joi-coerced to timestamps (modelled as integers), the
`coordinates` field is required and ring-validated, and the custom
`date-order-validation` step rejects `start_date > end_date`. -/
def ndviValidate (start_date end_date : Option ℤ) (coordinates : Option JsVal) : Bool :=
  match start_date, end_date, coordinates with
  | some s, some e, some c => coordinatesOK c && !(decide (s > e))
  | _, _, _ => false

/-- The keys `demRequestSchema` declares; Joi rejects any other key. -/
def demAllowedKeys : List String := ["coordinates", "product"]

/-- `Joi.string().valid("GLO-30", "GLO-90", "EEA-10")`. -/
def demProductOK : JsVal → Bool
  | .str s => s == "GLO-30" || s == "GLO-90" || s == "EEA-10"
  | _ => false

/-- Model of `demRequestSchema.validate` on a request body (a list of
key/value pairs): every key must be one of the declared keys (Joi's
default unknown-key rejection), `coordinates` is required and
ring-validated, and `product` must be one of the three tags when present
(Joi fills in the default `"GLO-30"` when absent). -/
def demValidate (body : List (String × JsVal)) : Bool :=
  body.all (fun kv => demAllowedKeys.contains kv.1) &&
  (match body.lookup "coordinates" with
   | some c => coordinatesOK c
   | none => false) &&
  (match body.lookup "product" with
   | some p => demProductOK p
   | none => true)

/-! ## ProcessGraphBuilder: the NDVI process graph (openeoService.js) -/

/-- Model of `loadFields(coordinates)`: wrap the polygon coordinates in a
single-feature GeoJSON FeatureCollection with empty properties. -/
def loadFields (coordinates : JsVal) : JsVal :=
  .obj
    [("type", .str "FeatureCollection"),
     ("features",
      .arr
        [.obj
          [("type", .str "Feature"),
           ("properties", .obj []),
           ("geometry",
            .obj
              [("type", .str "Polygon"),
               ("coordinates", coordinates)])]])]

/-- The literal NDVI process graph built in `getNDVITimeseries`, as a
function of the two ISO date strings and the polygon coordinates. -/
def ndviProcessGraph (startISO endISO : String) (coordinates : JsVal) : JsVal :=
  .obj
    [("loadcollection1",
      .obj
        [("process_id", .str "load_collection"),
         ("arguments",
          .obj
            [("bands", .arr [.str "B04", .str "B08"]),
             ("id", .str "SENTINEL2_L2A"),
             ("spatial_extent", .null),
             ("temporal_extent", .arr [.str startISO, .str endISO])])]),
     ("reducedimension1",
      .obj
        [("process_id", .str "reduce_dimension"),
         ("arguments",
          .obj
            [("data", .obj [("from_node", .str "loadcollection1")]),
             ("dimension", .str "bands"),
             ("reducer",
              .obj
                [("process_graph",
                  .obj
                    [("arrayelement1",
                      .obj
                        [("process_id", .str "array_element"),
                         ("arguments",
                          .obj
                            [("data", .obj [("from_parameter", .str "data")]),
                             ("index", .num 1)])]),
                     ("arrayelement2",
                      .obj
                        [("process_id", .str "array_element"),
                         ("arguments",
                          .obj
                            [("data", .obj [("from_parameter", .str "data")]),
                             ("index", .num 0)])]),
                     ("subtract1",
                      .obj
                        [("process_id", .str "subtract"),
                         ("arguments",
                          .obj
                            [("x", .obj [("from_node", .str "arrayelement1")]),
                             ("y", .obj [("from_node", .str "arrayelement2")])])]),
                     ("add1",
                      .obj
                        [("process_id", .str "add"),
                         ("arguments",
                          .obj
                            [("x", .obj [("from_node", .str "arrayelement1")]),
                             ("y", .obj [("from_node", .str "arrayelement2")])])]),
                     ("divide1",
                      .obj
                        [("process_id", .str "divide"),
                         ("arguments",
                          .obj
                            [("x", .obj [("from_node", .str "subtract1")]),
                             ("y", .obj [("from_node", .str "add1")])]),
                         ("result", .bool true)])])])])]),
     ("aggregatespatial1",
      .obj
        [("process_id", .str "aggregate_spatial"),
         ("arguments",
          .obj
            [("data", .obj [("from_node", .str "reducedimension1")]),
             ("geometries", loadFields coordinates),
             ("reducer",
              .obj
                [("process_graph",
                  .obj
                    [("mean1",
                      .obj
                        [("process_id", .str "mean"),
                         ("arguments",
                          .obj [("data", .obj [("from_parameter", .str "data")])]),
                         ("result", .bool true)])])])]),
         ("result", .bool true)])]

/-! An evaluator for band-reducer sub-graphs, used to state that the
reducer above computes `(NIR − RED) / (NIR + RED)`.  A node argument is
either a literal number, a `from_parameter: "data"` reference (the band
array), or a `from_node` reference to another node; evaluation is
fuel-bounded recursion over the node map. -/

/-- Evaluate one argument of a reducer node: a literal number or a
`from_node` reference (a `from_parameter` reference denotes the band
array, which is not a number). -/
def evalArg (evalNode : String → Option ℚ) (v : JsVal) : Option ℚ :=
  match v with
  | .num q => some q
  | .obj [("from_node", .str n)] => evalNode n
  | _ => none

/-- Evaluate the node named `name` of the reducer process graph `kvs`
over the band array `bands`, with `fuel` bounding the reference depth. -/
def evalNode (kvs : List (String × JsVal)) (bands : List ℚ) :
    ℕ → String → Option ℚ
  | 0, _ => none
  | fuel + 1, name =>
    match kvs.lookup name with
    | some node =>
      match getField node "process_id" with
      | .str "array_element" =>
        match getField (getField node "arguments") "index" with
        | .num i => bands.get? i.num.toNat
        | _ => none
      | .str "subtract" =>
        match evalArg (evalNode kvs bands fuel)
                (getField (getField node "arguments") "x"),
              evalArg (evalNode kvs bands fuel)
                (getField (getField node "arguments") "y") with
        | some x, some y => some (x - y)
        | _, _ => none
      | .str "add" =>
        match evalArg (evalNode kvs bands fuel)
                (getField (getField node "arguments") "x"),
              evalArg (evalNode kvs bands fuel)
                (getField (getField node "arguments") "y") with
        | some x, some y => some (x + y)
        | _, _ => none
      | .str "divide" =>
        match evalArg (evalNode kvs bands fuel)
                (getField (getField node "arguments") "x"),
              evalArg (evalNode kvs bands fuel)
                (getField (getField node "arguments") "y") with
        | some x, some y => some (x / y)
        | _, _ => none
      | _ => none
    | none => none

/-- Whether a node carries `result: true`. -/
def hasResultFlag (node : JsVal) : Bool :=
  match getField node "result" with
  | .bool true => true
  | _ => false

/-- Evaluate a reducer (`{process_graph: {...}}`) over a band array: find
the node flagged `result: true` and evaluate it. -/
def evalReducer (reducer : JsVal) (bands : List ℚ) : Option ℚ :=
  match getField reducer "process_graph" with
  | .obj kvs =>
    match kvs.find? (fun kv => hasResultFlag kv.2) with
    | some (name, _) => evalNode kvs bands (kvs.length) name
    | none => none
  | _ => none

/-- The reducer of the band-reduction node of the NDVI graph. -/
def ndviBandReducer (startISO endISO : String) (coordinates : JsVal) : JsVal :=
  getField
    (getField (getField (ndviProcessGraph startISO endISO coordinates)
      "reducedimension1") "arguments") "reducer"

/-! ## ResultTransformer: `transformDemData` (routes/demRoutes.js)

The transformer is a total function: the source wraps its body in
`try/catch` and returns `null` on any failure, so the embedding returns
an `Option` and "never throws" by construction. -/

/-- One point of the user-friendly output: rounded coordinates and the
elevation rounded to 2 decimal places. -/
structure DemPoint where
  x : JsVal
  y : JsVal
  elevation : ℚ

/-- The `statistics` object of the transformer's output. -/
structure DemStats where
  min : ℚ
  max : ℚ
  mean : ℚ
  median : ℚ
  stddev : ℚ
  count : ℕ
  units : String

/-- The `metadata` object of the transformer's output. -/
structure DemMeta where
  width : ℕ
  height : ℕ
  minX : JsVal
  maxX : JsVal
  minY : JsVal
  maxY : JsVal
  crs : JsVal

/-- The non-null result of `transformDemData`. -/
structure TransformResult where
  points : List DemPoint
  statistics : DemStats
  metadata : DemMeta

/-- The `isValidElevation` test of the source: the cell value is a number
(not `null`, `undefined` or `NaN`), differs from the three sentinel
nodata values `19.5`, `-9999`, `-32768`, and lies strictly between
`-1000` and `10000`. -/
def isValidElevation : JsVal → Bool
  | .num q =>
    !(q == (39 : ℚ)/2) && !(q == (-9999 : ℚ)) && !(q == (-32768 : ℚ)) &&
    decide ((-1000 : ℚ) < q) && decide (q < (10000 : ℚ))
  | _ => false

/-- The body of the inner loop: a cell contributes a point and a raw
elevation iff it passes `isValidElevation` and both indices are inside
the coordinate arrays (`xIdx < xCoords.length && yIdx < yCoords.length`). -/
def cellEntry (xV yV : JsVal) (yIdx xIdx : ℕ) (cell : JsVal) :
    Option (DemPoint × ℚ) :=
  if isValidElevation cell then
    match cell with
    | .num q =>
      match jsLen xV, jsLen yV with
      | some lx, some ly =>
        if xIdx < lx ∧ yIdx < ly then
          some
            ({ x := jsRound6 (jsIndex xV xIdx)
               y := jsRound6 (jsIndex yV yIdx)
               elevation := round2 q }, q)
        else none
      | _, _ => none
    | _ => none
  else none

/-- The double loop of the source: rows indexed by `yIdx` (non-array rows
are skipped by `continue`), cells indexed by `xIdx`. -/
def collectGrid (xV yV : JsVal) (rows : List JsVal) : List (DemPoint × ℚ) :=
  (rows.enum).flatMap fun yr =>
    match yr.2 with
    | .arr row => (row.enum).filterMap fun xc => cellEntry xV yV yr.1 xc.1 xc.2
    | _ => []

/-- `Math.min(...l)` over a nonempty list of raw elevations. -/
def minOf : List ℚ → ℚ
  | [] => 0
  | x :: xs => xs.foldl min x

/-- `Math.max(...l)` over a nonempty list of raw elevations. -/
def maxOf : List ℚ → ℚ
  | [] => 0
  | x :: xs => xs.foldl max x

/-- `l.reduce((sum, val) => sum + val, 0)`. -/
def sumOf (l : List ℚ) : ℚ := l.foldl (· + ·) 0

/-- The arithmetic mean `sum / length` of the source. -/
def meanOf (l : List ℚ) : ℚ := sumOf l / l.length

/-- `[...l].sort((a, b) => a - b)`: the list sorted ascending. -/
def sortedOf (l : List ℚ) : List ℚ := l.insertionSort (· ≤ ·)

/-- The median of the source: average of the two middle values of the
sorted list for even counts, the middle value for odd counts. -/
def medianOf (l : List ℚ) : ℚ :=
  let s := sortedOf l
  if l.length % 2 == 0 then
    (s.getD (l.length / 2 - 1) 0 + s.getD (l.length / 2) 0) / 2
  else s.getD (l.length / 2) 0

/-- The population variance of the source:
`l.reduce((sum, val) => sum + (val - mean)², 0) / l.length`. -/
def varianceOf (l : List ℚ) : ℚ :=
  (l.foldl (fun acc v => acc + (v - meanOf l) ^ 2) 0) / l.length

/-- The `statistics` object computed by the source over the raw valid
elevations (all but the count rounded to 2 decimal places; the standard
deviation is the rounded square root of the population variance). -/
def statsOf (l : List ℚ) : DemStats :=
  { min := round2 (minOf l)
    max := round2 (maxOf l)
    mean := round2 (meanOf l)
    median := round2 (medianOf l)
    stddev := sqrtRound2 (varianceOf l)
    count := l.length
    units := "meters" }

/-- `Math.min(...xs)` over a JavaScript array value, used for the
metadata bounds: coercible elements fold with `min`, anything
non-coercible makes the result `NaN`. -/
def jsMinList (v : JsVal) : JsVal :=
  match v with
  | .arr xs =>
    match xs.mapM jsToNumber with
    | some (q :: qs) => .num (qs.foldl min q)
    | _ => .nan
  | _ => .nan

/-- `Math.max(...xs)` over a JavaScript array value. -/
def jsMaxList (v : JsVal) : JsVal :=
  match v with
  | .arr xs =>
    match xs.mapM jsToNumber with
    | some (q :: qs) => .num (qs.foldl max q)
    | _ => .nan
  | _ => .nan

/-- Model of `transformDemData(demData)` from routes/demRoutes.js. -/
def transformDemData (d : JsVal) : Option TransformResult :=
  if jsFalsy d then none
  else if jsFalsy (getField d "data") then none
  else
    match getField d "data" with
    | .arr bands =>
      match bands.headD .undefined with
      | .arr rows =>
        let xV := jsOr (getField (getField (getField d "coords") "x") "data") (.arr [])
        let yV := jsOr (getField (getField (getField d "coords") "y") "data") (.arr [])
        if jsLenIsZero xV || jsLenIsZero yV then none
        else
          let pairs := collectGrid xV yV rows
          let validElevations := pairs.map Prod.snd
          if validElevations.length = 0 then none
          else
            some
              { points := pairs.map Prod.fst
                statistics := statsOf validElevations
                metadata :=
                  { width := (jsLen xV).getD 0
                    height := (jsLen yV).getD 0
                    minX := jsMinList xV
                    maxX := jsMaxList xV
                    minY := jsMinList yV
                    maxY := jsMaxList yV
                    crs := jsOr (getField (getField d "attrs") "crs") (.str "Unknown") } }
      | _ => none
    | _ => none

/-- The worked example of the spec: band grid `[[0,10],[20,30]]` with a
2×2 coordinate grid. -/
def demoGrid : JsVal :=
  .obj
    [("data", .arr [.arr [.arr [.num 0, .num 10], .arr [.num 20, .num 30]]]),
     ("coords",
      .obj
        [("x", .obj [("data", .arr [.num 0, .num 1])]),
         ("y", .obj [("data", .arr [.num 0, .num 1])])])]

/-! ## TokenCache: `getAccessToken` (openeoService.js)

State passing is explicit: the cached token and expiry are the two
mutable fields of the service object, `now` is `Date.now()`, and the
refresh path consumes the token returned by the identity endpoint
(success case; a failed refresh throws and leaves no new state).  The
outbound HTTP requests the call performs are recorded in order. -/

/-- The two mutable fields of the service object. -/
structure TokenState where
  accessToken : Option String
  tokenExpiry : Option ℤ

/-- The outbound requests of the refresh path: the capabilities probe
`GET baseURL/` and the identity-endpoint token POST. -/
inductive NetRequest where
  | capabilities
  | tokenPost
deriving DecidableEq

/-- Result of a `getAccessToken` call: the returned token, the state of
the service afterwards, and the network requests issued, in order. -/
structure GetTokenResult where
  token : String
  state : TokenState
  trace : List NetRequest

/-- The `this.accessToken && this.tokenExpiry && Date.now() < this.tokenExpiry`
test of the source, including JavaScript truthiness of the two fields
(an empty-string token or a zero expiry is falsy). -/
def tokenCacheHit (st : TokenState) (now : ℤ) : Bool :=
  match st.accessToken, st.tokenExpiry with
  | some t, some e => !(t == "") && !(e == 0) && decide (now < e)
  | _, _ => false

/-- Model of a successful `getAccessToken()` call: return the cached
token without network traffic when the cache check passes, otherwise
probe the capabilities endpoint, POST to the identity endpoint, prefix
the received token with `oidc/CDSE/` and store it with expiry
`now + 55 * 60 * 1000` milliseconds. -/
def getAccessToken (st : TokenState) (now : ℤ) (fetched : String) :
    GetTokenResult :=
  if tokenCacheHit st now then
    { token := st.accessToken.getD "", state := st, trace := [] }
  else
    let t := "oidc/CDSE/" ++ fetched
    { token := t
      state := { accessToken := some t, tokenExpiry := some (now + 55 * 60 * 1000) }
      trace := [.capabilities, .tokenPost] }

/-! ## CollectionResolver: `resolveDemCollectionId` (openeoService.js) -/

/-- One entry of the remote catalog; absent `id`/`title`/`description`
fields are `none` (JavaScript `undefined`). -/
structure CatalogEntry where
  id : Option String
  title : Option String
  description : Option String

/-- The fixed ordered list of well-known DEM collection identifiers the
source tests against the catalog. -/
def knownDemIds : List String :=
  ["USGS/SRTMGL1_003", "CGIAR/SRTM90_V4", "NASA/NASADEM_HGT/001",
   "USGS/GMTED2010", "NOAA/NGDC/ETOPO1", "COPERNICUS/DEM/GLO-30",
   "JAXA/ALOS/AW3D30/V3_2"]

/-- Substring test on character lists (used for `String.includes`). -/
def listContainsSub (needle : List Char) : List Char → Bool
  | [] => needle.isPrefixOf []
  | c :: t => needle.isPrefixOf (c :: t) || listContainsSub needle t

/-- `hay.includes(needle)` on strings. -/
def strIncludes (hay needle : String) : Bool :=
  listContainsSub needle.toList hay.toList

/-- `(c.field || "").toLowerCase()` of the source. -/
def lcField (o : Option String) : String := (o.getD "").toLower

/-- The `hasDemKeywords` filter of the source. -/
def hasDemKeywords (c : CatalogEntry) : Bool :=
  strIncludes (lcField c.id) "dem" || strIncludes (lcField c.title) "dem" ||
  strIncludes (lcField c.id) "elevation" || strIncludes (lcField c.title) "elevation" ||
  strIncludes (lcField c.id) "height" || strIncludes (lcField c.title) "height" ||
  strIncludes (lcField c.id) "srtm" || strIncludes (lcField c.title) "srtm" ||
  strIncludes (lcField c.description) "elevation" ||
  strIncludes (lcField c.description) "digital elevation"

/-- The `notVegetation` filter of the source. -/
def notVegetation (c : CatalogEntry) : Bool :=
  !(strIncludes (lcField c.id) "sosd") && !(strIncludes (lcField c.id) "eosd") &&
  !(strIncludes (lcField c.id) "vegetation") &&
  !(strIncludes (lcField c.title) "vegetation") &&
  !(strIncludes (lcField c.description) "phenology") &&
  !(strIncludes (lcField c.description) "vegetation")

/-- The candidate filter of the source (`hasDemKeywords && notVegetation`). -/
def demCandidate (c : CatalogEntry) : Bool := hasDemKeywords c && notVegetation c

set_option linter.unusedVariables false in
/-- Model of `resolveDemCollectionId(product, token)`.  The catalog
argument is `none` when the `GET /collections` call fails, otherwise the
fetched list (`resp.data.collections || []`).  The result is the
collection id the source returns; a candidate picked by keyword search
whose `id` field is absent yields JavaScript `undefined`, modelled as
`none`.  The requested product only feeds the unused `want` variable of
the source and does not influence the result. -/
def resolveDemCollectionId (product : String) (catalog : Option (List CatalogEntry)) :
    Option String :=
  match catalog with
  | none => some "USGS/SRTMGL1_003"
  | some list =>
    match knownDemIds.find? (fun tid => list.any (fun c => c.id == some tid)) with
    | some tid => some tid
    | none =>
      match (list.filter demCandidate).head? with
      | some c => c.id
      | none => some "USGS/SRTMGL1_003"

/-! ## JSON sanitization and parsing (`router.post("/clip")` in demRoutes.js)

The source runs three chained global regex replacements
`:\s*TOK\s*([,}])` → `: null$1` for `TOK` ∈ {NaN, Infinity, -Infinity}
over the response text before `JSON.parse`.  The scanner below models one
such replacement pass: at each position it tries to match a colon,
optional whitespace, the token, optional whitespace and a `,` or `}`
delimiter, emits `: null` plus the delimiter on a match (resuming after
the matched text, as a global regex does), and copies one character
otherwise. -/

/-- The opening brace character (written via its code point). -/
def lbrace : Char := Char.ofNat 123

/-- The closing brace character (written via its code point). -/
def rbrace : Char := Char.ofNat 125

/-- Whitespace as matched by the `\s` regex class (the characters that
occur in JSON text). -/
def isJsSpace (c : Char) : Bool :=
  c == ' ' || c == '\t' || c == '\n' || c == '\r'

/-- Try to match `:\s*TOK\s*([,}])` at the head of the input; on success
return the captured delimiter and the rest of the input. -/
def matchColonToken (tok : List Char) (cs : List Char) : Option (Char × List Char) :=
  match cs with
  | ':' :: rest =>
    if tok.isPrefixOf (rest.dropWhile isJsSpace) then
      match ((rest.dropWhile isJsSpace).drop tok.length).dropWhile isJsSpace with
      | c :: rest3 => if c == ',' || c == rbrace then some (c, rest3) else none
      | [] => none
    else none
  | _ => none

/-- The replacement text `: null` (colon, space, `null`). -/
def nullReplacement : List Char := [':', ' ', 'n', 'u', 'l', 'l']

/-- One global replacement pass of `.replace(/:\s*TOK\s*([,}])/g, ": null$1")`:
scan left to right, emit `: null` plus the captured delimiter on each
match and resume after the matched text.  `fuel` bounds the scan (any
`fuel > cs.length` is enough). -/
def replacePass (tok : List Char) : ℕ → List Char → List Char
  | 0, cs => cs
  | _ + 1, [] => []
  | fuel + 1, c :: cs =>
    match matchColonToken tok (c :: cs) with
    | some pr => nullReplacement ++ pr.1 :: replacePass tok fuel pr.2
    | none => c :: replacePass tok fuel cs

/-- One full replacement pass with enough fuel for the whole text. -/
def runReplace (tok cs : List Char) : List Char :=
  replacePass tok (cs.length + 1) cs

/-- The chained sanitization of the source: replace `NaN`, then
`Infinity`, then `-Infinity` values by `null`. -/
def sanitizeJson (s : String) : String :=
  String.mk
    (runReplace "-Infinity".toList
      (runReplace "Infinity".toList
        (runReplace "NaN".toList s.toList)))

/-! A small JSON parser (fuel-bounded recursive descent), modelling
`JSON.parse` on the response bodies: objects, arrays, strings without
escape handling beyond `\"` and `\\`, decimal numbers without exponents,
and the three literals.  The sanitization claims compare parses of
sanitized and unsanitized text, so the parser's restrictions cancel. -/

/-- Parse a string body up to the closing quote. -/
def parseStringBody : List Char → Option (String × List Char)
  | [] => none
  | c :: cs =>
    if c == '"' then some ("", cs)
    else if c == '\\' then
      match cs with
      | c2 :: cs2 =>
        match parseStringBody cs2 with
        | some (s, rest) => some (⟨c2 :: s.toList⟩, rest)
        | none => none
      | [] => none
    else
      match parseStringBody cs with
      | some (s, rest) => some (⟨c :: s.toList⟩, rest)
      | none => none

/-- Parse a run of decimal digits into a natural number. -/
def parseDigits : List Char → ℕ → ℕ × ℕ × List Char
  | [], acc => (acc, 0, [])
  | c :: cs, acc =>
    if c.isDigit then
      let r := parseDigits cs (acc * 10 + (c.toNat - 48))
      (r.1, r.2.1 + 1, r.2.2)
    else (acc, 0, c :: cs)

/-- Parse a JSON number (optional minus, digits, optional fraction). -/
def parseNumber (cs : List Char) : Option (ℚ × List Char) :=
  let (neg, cs1) := match cs with
    | '-' :: rest => (true, rest)
    | _ => (false, cs)
  match cs1 with
  | c :: _ =>
    if c.isDigit then
      let (ip, _, cs2) := parseDigits cs1 0
      let (q, cs4) :=
        match cs2 with
        | '.' :: cs3 =>
          let (fp, fn, cs4) := parseDigits cs3 0
          (((ip : ℚ) + (fp : ℚ) / ((10 : ℚ) ^ fn)), cs4)
        | _ => ((ip : ℚ), cs2)
      some (if neg then -q else q, cs4)
    else none
  | [] => none

/-- Skip JSON whitespace. -/
def skipWs (cs : List Char) : List Char := cs.dropWhile isJsSpace

mutual

/-- Parse one JSON value. -/
def parseValue : ℕ → List Char → Option (JsVal × List Char)
  | 0, _ => none
  | fuel + 1, cs =>
    match skipWs cs with
    | [] => none
    | c :: rest =>
      if c == '"' then
        match parseStringBody rest with
        | some (s, rest2) => some (.str s, rest2)
        | none => none
      else if c == lbrace then parseMembers fuel (skipWs rest) true
      else if c == '[' then parseElems fuel (skipWs rest) true
      else if "null".toList.isPrefixOf (c :: rest) then
        some (.null, (c :: rest).drop 4)
      else if "true".toList.isPrefixOf (c :: rest) then
        some (.bool true, (c :: rest).drop 4)
      else if "false".toList.isPrefixOf (c :: rest) then
        some (.bool false, (c :: rest).drop 5)
      else
        match parseNumber (c :: rest) with
        | some (q, rest2) => some (.num q, rest2)
        | none => none

/-- Parse the elements of an array after `[`; `first` is true before the
first element. -/
def parseElems : ℕ → List Char → Bool → Option (JsVal × List Char)
  | 0, _, _ => none
  | fuel + 1, cs, first =>
    match skipWs cs with
    | ']' :: rest => if first then some (.arr [], rest) else none
    | cs1 =>
      match parseValue fuel cs1 with
      | some (v, rest) =>
        match skipWs rest with
        | ',' :: rest2 =>
          match parseElems fuel rest2 false with
          | some (.arr vs, rest3) => some (.arr (v :: vs), rest3)
          | _ => none
        | ']' :: rest2 => some (.arr [v], rest2)
        | _ => none
      | none => none

/-- Parse the members of an object after the opening brace; `first` is
true before the first member. -/
def parseMembers : ℕ → List Char → Bool → Option (JsVal × List Char)
  | 0, _, _ => none
  | fuel + 1, cs, first =>
    match skipWs cs with
    | [] => none
    | c :: rest =>
      if c == rbrace then (if first then some (.obj [], rest) else none)
      else if c == '"' then
        match parseStringBody rest with
        | some (k, rest2) =>
          match skipWs rest2 with
          | ':' :: rest3 =>
            match parseValue fuel rest3 with
            | some (v, rest4) =>
              match skipWs rest4 with
              | ',' :: rest5 =>
                match parseMembers fuel rest5 false with
                | some (.obj kvs, rest6) => some (.obj ((k, v) :: kvs), rest6)
                | _ => none
              | c2 :: rest5 =>
                if c2 == rbrace then some (.obj [(k, v)], rest5) else none
              | [] => none
            | none => none
          | _ => none
        | none => none
      else none

end

/-- Model of `JSON.parse` on a whole document: parse one value and
require only whitespace to remain. -/
def parseJson (s : String) : Option JsVal :=
  match parseValue (s.length + 1) s.toList with
  | some (v, rest) => if (skipWs rest).isEmpty then some v else none
  | none => none

/-! ## Auxiliary definitions for the claim statements -/

/-- Follow a chain of property accesses through a process graph. -/
def graphPath (g : JsVal) (path : List String) : JsVal := path.foldl getField g

/-- All cells of the elevation grid of a response, in scan order: the
rows of the first band of the `data` field, with non-array rows
contributing nothing (the source `continue`s over them). -/
def gridCells (d : JsVal) : List JsVal :=
  match getField d "data" with
  | .arr bands =>
    match bands.headD .undefined with
    | .arr rows =>
      rows.flatMap fun r =>
        match r with
        | .arr row => row
        | _ => []
    | _ => []
  | _ => []

/-- No cell of the grid passes `isValidElevation`. -/
def noValidCell (d : JsVal) : Bool :=
  (gridCells d).all fun c => !(isValidElevation c)

/-- The raw valid elevations the transformer collects from a response
(the `validElevations` array of the source). -/
def validElevationsOf (d : JsVal) : List ℚ :=
  match getField d "data" with
  | .arr bands =>
    match bands.headD .undefined with
    | .arr rows =>
      (collectGrid
        (jsOr (getField (getField (getField d "coords") "x") "data") (.arr []))
        (jsOr (getField (getField (getField d "coords") "y") "data") (.arr []))
        rows).map Prod.snd
    | _ => []
  | _ => []

/-- A response whose only cell is the elevation `9999.999`, which is
valid (strictly below `10000`) but rounds to exactly `10000`. -/
def boundaryGrid : JsVal :=
  .obj
    [("data", .arr [.arr [.arr [.num (9999999/1000)]]]),
     ("coords",
      .obj
        [("x", .obj [("data", .arr [.num 0])]),
         ("y", .obj [("data", .arr [.num 0])])])]

/-- A valid `coordinates` value: one ring of three finite points. -/
def goodCoords : JsVal :=
  .arr [.arr [.arr [.num 0, .num 0], .arr [.num 1, .num 0], .arr [.num 1, .num 1]]]

/-- A `POST /dem/clip` body carrying the documented `format` field. -/
def demBodyWithFormat : List (String × JsVal) :=
  [("coordinates", goodCoords), ("product", .str "GLO-30"), ("format", .str "JSON")]

/-- The same body without the `format` field. -/
def demBodyNoFormat : List (String × JsVal) :=
  [("coordinates", goodCoords), ("product", .str "GLO-30")]

/-- A response whose only cell is the nodata sentinel `-9999`. -/
def allNodataGrid : JsVal :=
  .obj
    [("data", .arr [.arr [.arr [.num (-9999)]]]),
     ("coords",
      .obj
        [("x", .obj [("data", .arr [.num 0])]),
         ("y", .obj [("data", .arr [.num 0])])])]

/-- A placeholder transformer result used to instantiate universally
quantified statements at concrete inputs. -/
def emptyResult : TransformResult :=
  { points := []
    statistics := statsOf []
    metadata :=
      { width := 0, height := 0, minX := .nan, maxX := .nan, minY := .nan,
        maxY := .nan, crs := .str "Unknown" } }

/-! ## Supporting lemmas and claim theorems -/

/-- Helper: identify a concrete value of `Nat.sqrt` from the bracketing
squares. -/
theorem natSqrt_eq {n m : ℕ} (h1 : m * m ≤ n) (h2 : n < (m + 1) * (m + 1)) :
    Nat.sqrt n = m :=
  Nat.le_antisymm (Nat.le_of_lt_succ (Nat.sqrt_lt.2 h2)) (Nat.le_sqrt.2 h1)

/-- A prefix occurrence is an occurrence. -/
theorem contains_of_isPre {tok l : List Char} (h : tok.isPrefixOf l = true) :
    listContainsSub tok l = true := by
  cases l with
  | nil => simpa [listContainsSub] using h
  | cons c t => simp [listContainsSub, h]

/-- Occurrences are preserved when text is prepended (suffix
monotonicity of the substring test). -/
theorem contains_of_suffix {tok s l : List Char} (hs : s <:+ l)
    (h : listContainsSub tok s = true) : listContainsSub tok l = true := by
  induction l with
  | nil =>
    rcases hs with ⟨t, ht⟩
    have : s = [] := by
      cases s with
      | nil => rfl
      | cons a b => simp at ht
    subst this; exact h
  | cons c t ih =>
    rcases hs with ⟨u, hu⟩
    cases u with
    | nil =>
      have hs2 : s = c :: t := by simpa using hu
      rw [← hs2]; exact h
    | cons a b =>
      have : s <:+ t := ⟨b, by injection hu⟩
      simp [listContainsSub, ih this]

/-- If the token does not occur, the pattern cannot match. -/
theorem matchColonToken_none {tok : List Char} {c : Char} {cs : List Char}
    (hn : listContainsSub tok (c :: cs) = false) :
    matchColonToken tok (c :: cs) = none := by
  have hcs : listContainsSub tok cs = false := by
    by_contra hx
    have hx' : listContainsSub tok cs = true := by
      cases h : listContainsSub tok cs with
      | true => rfl
      | false => exact absurd h hx
    have := contains_of_suffix (List.suffix_cons c cs) hx'
    simp [this] at hn
  have hdrop : tok.isPrefixOf (cs.dropWhile isJsSpace) = false := by
    by_contra hx
    have hx' : tok.isPrefixOf (cs.dropWhile isJsSpace) = true := by
      cases h : tok.isPrefixOf (cs.dropWhile isJsSpace) with
      | true => rfl
      | false => exact absurd h hx
    have h1 := contains_of_isPre hx'
    have h2 := contains_of_suffix (List.dropWhile_suffix isJsSpace) h1
    rw [h2] at hcs
    exact absurd hcs (by simp)
  cases hc : c == ':' with
  | false =>
    unfold matchColonToken
    have : c ≠ ':' := by
      intro he; subst he; simp at hc
    split
    · rename_i heq
      injection heq with h1 h2
      exact absurd h1 this
    · rfl
  | true =>
    have : c = ':' := by
      have := hc
      simpa using this
    subst this
    unfold matchColonToken
    simp [hdrop]

/-- A replacement pass leaves token-free text unchanged. -/
theorem replacePass_id {tok : List Char} :
    ∀ (fuel : ℕ) (cs : List Char), listContainsSub tok cs = false →
      replacePass tok fuel cs = cs := by
  intro fuel
  induction fuel with
  | zero => intro cs _; rfl
  | succ n ih =>
    intro cs hn
    cases cs with
    | nil => rfl
    | cons c t =>
      have hmatch := matchColonToken_none hn
      have ht : listContainsSub tok t = false := by
        by_contra hx
        have hx' : listContainsSub tok t = true := by
          cases h : listContainsSub tok t with
          | true => rfl
          | false => exact absurd h hx
        have := contains_of_suffix (List.suffix_cons c t) hx'
        simp [this] at hn
      unfold replacePass
      rw [hmatch, ih t ht]

/-- Extending the token cannot create occurrences. -/
theorem contains_cons_token {c : Char} {tok l : List Char}
    (h : listContainsSub tok l = false) :
    listContainsSub (c :: tok) l = false := by
  induction l with
  | nil => simp [listContainsSub, List.isPrefixOf]
  | cons a t ih =>
    have ht : listContainsSub tok t = false := by
      by_contra hx
      have hx' : listContainsSub tok t = true := by
        cases hh : listContainsSub tok t with
        | true => rfl
        | false => exact absurd hh hx
      have := contains_of_suffix (List.suffix_cons a t) hx'
      simp [this] at h
    have hpre : (c :: tok).isPrefixOf (a :: t) = false := by
      by_contra hx
      have hx' : (c :: tok).isPrefixOf (a :: t) = true := by
        cases hh : (c :: tok).isPrefixOf (a :: t) with
        | true => rfl
        | false => exact absurd hh hx
      have hx2 : c = a ∧ tok <+: t := by simpa using hx'
      have h2 : tok.isPrefixOf t = true := by
        rw [List.isPrefixOf_iff_prefix]
        exact hx2.2
      have h3 := contains_of_suffix (List.suffix_cons a t) (contains_of_isPre h2)
      simp [h3] at h
    simp [listContainsSub, hpre, ih ht]

/-- Sanitizing a string with no `NaN` and no `Infinity` substring leaves
it unchanged. -/
theorem sanitizeJson_id {s : String}
    (h1 : strIncludes s "NaN" = false)
    (h2 : strIncludes s "Infinity" = false) :
    sanitizeJson s = s := by
  have h3 : listContainsSub "-Infinity".toList s.toList = false := by
    have : ("-Infinity".toList : List Char) = '-' :: "Infinity".toList := rfl
    rw [this]
    exact contains_cons_token h2
  unfold sanitizeJson runReplace
  rw [replacePass_id _ _ h1, replacePass_id _ _ h2, replacePass_id _ _ h3]
  cases s
  rfl

/-- C1: for every polygon, start date and end date, the NDVI process
graph loads bands `["B04","B08"]` from collection `"SENTINEL2_L2A"` with
null spatial extent over the requested temporal extent; its band reducer
takes NIR from band index 1 and RED from band index 0, subtracts and adds
them, and divides the difference by the sum (so it computes
`(NIR−RED)/(NIR+RED)`); and the graph ends with a spatial aggregation
over the polygon's FeatureCollection with a mean reducer. -/
theorem c1_ndvi_process_graph (startISO endISO : String) (coordinates : JsVal)
    (red nir : ℚ) :
    graphPath (ndviProcessGraph startISO endISO coordinates)
        ["loadcollection1", "arguments", "bands"] =
      .arr [.str "B04", .str "B08"] ∧
    graphPath (ndviProcessGraph startISO endISO coordinates)
        ["loadcollection1", "arguments", "id"] = .str "SENTINEL2_L2A" ∧
    graphPath (ndviProcessGraph startISO endISO coordinates)
        ["loadcollection1", "arguments", "spatial_extent"] = .null ∧
    graphPath (ndviProcessGraph startISO endISO coordinates)
        ["loadcollection1", "arguments", "temporal_extent"] =
      .arr [.str startISO, .str endISO] ∧
    graphPath (ndviProcessGraph startISO endISO coordinates)
        ["reducedimension1", "arguments", "dimension"] = .str "bands" ∧
    graphPath (ndviProcessGraph startISO endISO coordinates)
        ["reducedimension1", "arguments", "reducer", "process_graph",
         "arrayelement1", "arguments", "index"] = .num 1 ∧
    graphPath (ndviProcessGraph startISO endISO coordinates)
        ["reducedimension1", "arguments", "reducer", "process_graph",
         "arrayelement2", "arguments", "index"] = .num 0 ∧
    graphPath (ndviProcessGraph startISO endISO coordinates)
        ["reducedimension1", "arguments", "reducer", "process_graph",
         "subtract1", "arguments", "x"] = .obj [("from_node", .str "arrayelement1")] ∧
    graphPath (ndviProcessGraph startISO endISO coordinates)
        ["reducedimension1", "arguments", "reducer", "process_graph",
         "subtract1", "arguments", "y"] = .obj [("from_node", .str "arrayelement2")] ∧
    graphPath (ndviProcessGraph startISO endISO coordinates)
        ["reducedimension1", "arguments", "reducer", "process_graph",
         "add1", "arguments", "x"] = .obj [("from_node", .str "arrayelement1")] ∧
    graphPath (ndviProcessGraph startISO endISO coordinates)
        ["reducedimension1", "arguments", "reducer", "process_graph",
         "add1", "arguments", "y"] = .obj [("from_node", .str "arrayelement2")] ∧
    graphPath (ndviProcessGraph startISO endISO coordinates)
        ["reducedimension1", "arguments", "reducer", "process_graph",
         "divide1", "arguments", "x"] = .obj [("from_node", .str "subtract1")] ∧
    graphPath (ndviProcessGraph startISO endISO coordinates)
        ["reducedimension1", "arguments", "reducer", "process_graph",
         "divide1", "arguments", "y"] = .obj [("from_node", .str "add1")] ∧
    graphPath (ndviProcessGraph startISO endISO coordinates)
        ["reducedimension1", "arguments", "reducer", "process_graph",
         "divide1", "result"] = .bool true ∧
    graphPath (ndviProcessGraph startISO endISO coordinates)
        ["aggregatespatial1", "arguments", "data"] =
      .obj [("from_node", .str "reducedimension1")] ∧
    graphPath (ndviProcessGraph startISO endISO coordinates)
        ["aggregatespatial1", "arguments", "geometries"] = loadFields coordinates ∧
    graphPath (ndviProcessGraph startISO endISO coordinates)
        ["aggregatespatial1", "arguments", "reducer", "process_graph",
         "mean1", "process_id"] = .str "mean" ∧
    graphPath (ndviProcessGraph startISO endISO coordinates)
        ["aggregatespatial1", "arguments", "reducer", "process_graph",
         "mean1", "result"] = .bool true ∧
    graphPath (ndviProcessGraph startISO endISO coordinates)
        ["aggregatespatial1", "result"] = .bool true ∧
    evalReducer (ndviBandReducer startISO endISO coordinates) [red, nir] =
      some ((nir - red) / (nir + red)) := by
  refine ⟨rfl, rfl, rfl, rfl, rfl, rfl, rfl, rfl, rfl, rfl, rfl, rfl, rfl, rfl,
    rfl, rfl, rfl, rfl, rfl, ?_⟩
  rfl

/-- An invalid cell contributes nothing to the collection loop. -/
theorem cellEntry_none_of_invalid {xV yV : JsVal} {yIdx xIdx : ℕ} {cell : JsVal}
    (h : isValidElevation cell = false) :
    cellEntry xV yV yIdx xIdx cell = none := by
  simp [cellEntry, h]

/-- If every cell of the grid is invalid, the collection loop returns
nothing. -/
theorem collectGrid_eq_nil {xV yV : JsVal} {rows : List JsVal}
    (h : ∀ c ∈ rows.flatMap
        (fun r => match r with | .arr row => row | _ => []),
      isValidElevation c = false) :
    collectGrid xV yV rows = [] := by
  unfold collectGrid
  refine List.flatMap_eq_nil_iff.mpr ?_
  intro yr hyr
  have hy2 : yr.2 ∈ rows := by
    have := List.mem_map_of_mem Prod.snd hyr
    rwa [List.enum_map_snd] at this
  cases hcase : yr.2 with
  | arr row =>
    simp only
    refine List.filterMap_eq_nil_iff.mpr ?_
    intro xc hxc
    have hx2 : xc.2 ∈ row := by
      have := List.mem_map_of_mem Prod.snd hxc
      rwa [List.enum_map_snd] at this
    refine cellEntry_none_of_invalid (h _ ?_)
    refine List.mem_flatMap.mpr ⟨yr.2, hy2, ?_⟩
    rw [hcase]
    exact hx2
  | undefined => rfl
  | null => rfl
  | nan => rfl
  | inf => rfl
  | ninf => rfl
  | bool b => rfl
  | num q => rfl
  | str s2 => rfl
  | obj kvs => rfl

/-- C2: a cell is valid iff its value is a number different from the
sentinels `19.5`, `-9999`, `-32768` and strictly between `-1000` and
`10000`; if no cell of the grid is valid the transformer returns `null`
(`none`); and a response without an array `data` field yields `null` as
well.  The transformer is a total function (the source wraps its body in
`try/catch`), so it returns a value on every input. -/
theorem c2_transformer_validity (d cell : JsVal) :
    (isValidElevation cell = true ↔
      ∃ q : ℚ, cell = .num q ∧ q ≠ 19.5 ∧ q ≠ -9999 ∧ q ≠ -32768 ∧
        -1000 < q ∧ q < 10000) ∧
    (noValidCell d = true → transformDemData d = none) ∧
    ((∀ bands, getField d "data" ≠ .arr bands) → transformDemData d = none) := by
  refine ⟨?_, ?_, ?_⟩
  · cases cell with
    | num q =>
      constructor
      · intro h
        refine ⟨q, rfl, ?_, ?_, ?_, ?_, ?_⟩ <;>
          [skip; skip; skip; skip; skip] <;>
          simp [isValidElevation] at h <;>
          norm_num at h ⊢ <;>
          tauto
      · rintro ⟨q', hq', h1, h2, h3, h4, h5⟩
        injection hq' with he
        subst he
        have h1b : q ≠ 39/2 := by
          intro hq
          exact h1 (by rw [hq]; norm_num)
        simp [isValidElevation]
        norm_num
        tauto
    | undefined => simp [isValidElevation]
    | null => simp [isValidElevation]
    | nan => simp [isValidElevation]
    | inf => simp [isValidElevation]
    | ninf => simp [isValidElevation]
    | bool b => simp [isValidElevation]
    | str s => simp [isValidElevation]
    | arr xs => simp [isValidElevation]
    | obj kvs => simp [isValidElevation]
  · intro h
    unfold transformDemData
    by_cases h1 : jsFalsy d = true
    · simp [h1]
    · simp only [h1]
      by_cases h2 : jsFalsy (getField d "data") = true
      · simp [h2]
      · simp only [h2]
        cases hdata : getField d "data" with
        | arr bands =>
          cases bands with
          | nil => rfl
          | cons b bs =>
            cases hb : b with
            | arr rows =>
              subst hb
              simp only [List.headD]
              by_cases h3 : (jsLenIsZero (jsOr (getField (getField (getField d "coords") "x") "data") (.arr [])) ||
                  jsLenIsZero (jsOr (getField (getField (getField d "coords") "y") "data") (.arr []))) = true
              · simp [h3]
              · simp only [h3]
                have hnil : collectGrid
                    (jsOr (getField (getField (getField d "coords") "x") "data") (.arr []))
                    (jsOr (getField (getField (getField d "coords") "y") "data") (.arr []))
                    rows = [] := by
                  refine collectGrid_eq_nil ?_
                  intro c hc
                  have hgc : c ∈ gridCells d := by
                    unfold gridCells
                    rw [hdata]
                    exact hc
                  have := (List.all_eq_true.mp h) c hgc
                  simpa using this
                simp [hnil]
            | undefined => subst hb; rfl
            | null => subst hb; rfl
            | nan => subst hb; rfl
            | inf => subst hb; rfl
            | ninf => subst hb; rfl
            | bool bv => subst hb; rfl
            | num q => subst hb; rfl
            | str s2 => subst hb; rfl
            | obj kvs => subst hb; rfl
        | undefined => rfl
        | null => rfl
        | nan => rfl
        | inf => rfl
        | ninf => rfl
        | bool b => rfl
        | num q => rfl
        | str s => rfl
        | obj kvs => rfl
  · intro h
    unfold transformDemData
    by_cases h1 : jsFalsy d = true
    · simp [h1]
    · simp only [h1]
      by_cases h2 : jsFalsy (getField d "data") = true
      · simp [h2]
      · simp only [h2]
        cases hdata : getField d "data" with
        | arr bands => exact absurd hdata (h bands)
        | undefined => rfl
        | null => rfl
        | nan => rfl
        | inf => rfl
        | ninf => rfl
        | bool b => rfl
        | num q => rfl
        | str s => rfl
        | obj kvs => rfl

/-- Witness for C2: the all-nodata grid has no valid cell, and the
transformer maps it to `null`. -/
theorem c2_transformer_validity_witness :
    noValidCell allNodataGrid = true ∧ transformDemData allNodataGrid = none := by
  have h : noValidCell allNodataGrid = true := by
    norm_num [noValidCell, gridCells, allNodataGrid, getField, List.lookup,
      isValidElevation]
  exact ⟨h, (c2_transformer_validity allNodataGrid .null).2.1 h⟩

/-- The running minimum is bounded by its seed. -/
theorem foldl_min_le_init (xs : List ℚ) : ∀ x : ℚ, xs.foldl min x ≤ x := by
  induction xs with
  | nil => intro x; simp
  | cons a t ih =>
    intro x
    calc t.foldl min (min x a) ≤ min x a := ih (min x a)
    _ ≤ x := min_le_left x a

/-- The running minimum is below every element. -/
theorem foldl_min_le_mem (xs : List ℚ) :
    ∀ (x : ℚ) (y : ℚ), y ∈ xs → xs.foldl min x ≤ y := by
  induction xs with
  | nil => intro x y hy; simp at hy
  | cons a t ih =>
    intro x y hy
    rcases List.mem_cons.mp hy with h | h
    · subst h
      calc t.foldl min (min x y) ≤ min x y := foldl_min_le_init t (min x y)
      _ ≤ y := min_le_right x y
    · exact ih (min x a) y h

/-- The running minimum is the seed or an element. -/
theorem foldl_min_mem (xs : List ℚ) :
    ∀ x : ℚ, xs.foldl min x ∈ x :: xs := by
  induction xs with
  | nil => intro x; simp
  | cons a t ih =>
    intro x
    have := ih (min x a)
    rcases List.mem_cons.mp this with h | h
    · rcases min_cases x a with ⟨he, _⟩ | ⟨he, _⟩
      · simp [h.trans he]
      · simp [h.trans he]
    · simp [List.mem_cons.mpr (Or.inr (List.mem_cons.mpr (Or.inr h)))]

/-- The running maximum is bounded below by its seed. -/
theorem le_foldl_max_init (xs : List ℚ) : ∀ x : ℚ, x ≤ xs.foldl max x := by
  induction xs with
  | nil => intro x; simp
  | cons a t ih =>
    intro x
    calc x ≤ max x a := le_max_left x a
    _ ≤ t.foldl max (max x a) := ih (max x a)

/-- The running maximum is above every element. -/
theorem mem_le_foldl_max (xs : List ℚ) :
    ∀ (x : ℚ) (y : ℚ), y ∈ xs → y ≤ xs.foldl max x := by
  induction xs with
  | nil => intro x y hy; simp at hy
  | cons a t ih =>
    intro x y hy
    rcases List.mem_cons.mp hy with h | h
    · subst h
      calc y ≤ max x y := le_max_right x y
      _ ≤ t.foldl max (max x y) := le_foldl_max_init t (max x y)
    · exact ih (max x a) y h

/-- The running maximum is the seed or an element. -/
theorem foldl_max_mem (xs : List ℚ) :
    ∀ x : ℚ, xs.foldl max x ∈ x :: xs := by
  induction xs with
  | nil => intro x; simp
  | cons a t ih =>
    intro x
    have := ih (max x a)
    rcases List.mem_cons.mp this with h | h
    · rcases max_cases x a with ⟨he, _⟩ | ⟨he, _⟩
      · simp [h.trans he]
      · simp [h.trans he]
    · simp [List.mem_cons.mpr (Or.inr (List.mem_cons.mpr (Or.inr h)))]

/-- Accumulator form of the list sum. -/
theorem foldl_add_eq (l : List ℚ) : ∀ acc : ℚ, l.foldl (· + ·) acc = acc + l.sum := by
  induction l with
  | nil => intro acc; simp
  | cons a t ih =>
    intro acc
    rw [List.foldl_cons, ih, List.sum_cons]
    ring

/-- The source's `reduce`-style sum agrees with the list sum. -/
theorem sumOf_eq_sum (l : List ℚ) : sumOf l = l.sum := by
  unfold sumOf
  rw [foldl_add_eq]
  simp

/-- The source's `reduce`-style sum of squared deviations agrees with the
mapped sum. -/
theorem foldl_sq_dev (l : List ℚ) (m : ℚ) :
    l.foldl (fun acc v => acc + (v - m) ^ 2) 0 =
      (l.map (fun v => (v - m) ^ 2)).sum := by
  have h : ∀ (acc : ℚ), l.foldl (fun acc v => acc + (v - m) ^ 2) acc =
      acc + (l.map (fun v => (v - m) ^ 2)).sum := by
    induction l with
    | nil => intro acc; simp
    | cons a t ih =>
      intro acc
      rw [List.foldl_cons, ih, List.map_cons, List.sum_cons]
      ring
  rw [h]
  simp

/-- When the transformer succeeds, its statistics are computed by
`statsOf` over the collected valid elevations, which are nonempty. -/
theorem transform_statistics {d : JsVal} {r : TransformResult}
    (ht : transformDemData d = some r) :
    r.statistics = statsOf (validElevationsOf d) ∧ validElevationsOf d ≠ [] := by
  unfold transformDemData at ht
  by_cases h1 : jsFalsy d = true
  · simp [h1] at ht
  · simp only [h1, Bool.false_eq_true, if_false] at ht
    by_cases h2 : jsFalsy (getField d "data") = true
    · simp [h2] at ht
    · simp only [h2, Bool.false_eq_true, if_false] at ht
      cases hdata : getField d "data" with
      | arr bands =>
        rw [hdata] at ht
        cases bands with
        | nil => exact absurd ht (by simp [List.headD])
        | cons b bs =>
          cases hb : b with
          | arr rows =>
            subst hb
            simp only [List.headD] at ht
            by_cases h3 : (jsLenIsZero (jsOr (getField (getField (getField d "coords") "x") "data") (.arr [])) ||
                jsLenIsZero (jsOr (getField (getField (getField d "coords") "y") "data") (.arr []))) = true
            · simp [h3] at ht
            · simp only [h3, Bool.false_eq_true, if_false] at ht
              by_cases h4 : (List.map Prod.snd
                  (collectGrid (jsOr (getField (getField (getField d "coords") "x") "data") (.arr []))
                    (jsOr (getField (getField (getField d "coords") "y") "data") (.arr [])) rows)).length = 0
              · simp [h4] at ht
              · simp only [h4, if_false] at ht
                have hr : r = { points := _, statistics := _, metadata := _ } :=
                  (Option.some_inj.mp ht).symm
                have hv : validElevationsOf d = List.map Prod.snd
                    (collectGrid (jsOr (getField (getField (getField d "coords") "x") "data") (.arr []))
                      (jsOr (getField (getField (getField d "coords") "y") "data") (.arr [])) rows) := by
                  unfold validElevationsOf
                  rw [hdata]
                  rfl
                constructor
                · rw [hr, hv]
                · rw [hv]
                  intro hnil
                  exact h4 (by rw [hnil]; rfl)
          | undefined => subst hb; simp [List.headD] at ht
          | null => subst hb; simp [List.headD] at ht
          | nan => subst hb; simp [List.headD] at ht
          | inf => subst hb; simp [List.headD] at ht
          | ninf => subst hb; simp [List.headD] at ht
          | bool bv => subst hb; simp [List.headD] at ht
          | num q => subst hb; simp [List.headD] at ht
          | str s2 => subst hb; simp [List.headD] at ht
          | obj kvs => subst hb; simp [List.headD] at ht
      | undefined => rw [hdata] at ht; simp at ht
      | null => rw [hdata] at ht; simp at ht
      | nan => rw [hdata] at ht; simp at ht
      | inf => rw [hdata] at ht; simp at ht
      | ninf => rw [hdata] at ht; simp at ht
      | bool b => rw [hdata] at ht; simp at ht
      | num q => rw [hdata] at ht; simp at ht
      | str s => rw [hdata] at ht; simp at ht
      | obj kvs => rw [hdata] at ht; simp at ht

/-- The collection loop on the spec's worked example grid. -/
theorem demoGrid_collect :
    collectGrid (.arr [.num 0, .num 1]) (.arr [.num 0, .num 1])
        [.arr [.num 0, .num 10], .arr [.num 20, .num 30]] =
      [({ x := .num 0, y := .num 0, elevation := 0 }, 0),
       ({ x := .num 1, y := .num 0, elevation := 10 }, 10),
       ({ x := .num 0, y := .num 1, elevation := 20 }, 20),
       ({ x := .num 1, y := .num 1, elevation := 30 }, 30)] := by
  norm_num [collectGrid, List.enum, List.enumFrom, cellEntry, isValidElevation,
    List.filterMap_cons, jsLen, jsIndex, jsRound6, jsToNumber, round6,
    jsMathRound, round2]

/-- The statistics of the spec's worked value list. -/
theorem demo_statsOf :
    statsOf [0, 10, 20, 30] =
      { min := 0, max := 30, mean := 15, median := 15,
        stddev := 1118/100, count := 4, units := "meters" } := by
  norm_num [statsOf, minOf, maxOf, meanOf, sumOf, medianOf, sortedOf,
    varianceOf, List.insertionSort, List.orderedInsert, round2, jsMathRound]
  rw [sqrtRound2]
  norm_num
  rw [natSqrt_eq (m := 2236) (by decide) (by decide)]
  norm_num

/-- Statistics of the worked example: the transformer maps the demo grid
to a result whose statistics are exactly the spec's expected record. -/
theorem demoGrid_statistics :
    (transformDemData demoGrid).map (fun r => r.statistics) =
      some
        { min := 0, max := 30, mean := 15, median := 15,
          stddev := 1118/100, count := 4, units := "meters" } := by
  have hdata : getField demoGrid "data" =
      .arr [.arr [.arr [.num 0, .num 10], .arr [.num 20, .num 30]]] := rfl
  have hx : jsOr (getField (getField (getField demoGrid "coords") "x") "data")
      (.arr []) = .arr [.num 0, .num 1] := rfl
  have hy : jsOr (getField (getField (getField demoGrid "coords") "y") "data")
      (.arr []) = .arr [.num 0, .num 1] := rfl
  unfold transformDemData
  rw [hdata, hx, hy]
  norm_num [demoGrid, jsFalsy, jsLenIsZero, jsLen, List.headD,
    demoGrid_collect, demo_statsOf]

set_option maxHeartbeats 2000000 in
/-- C3: the statistics of a successful transform are computed by
`statsOf` over the collected valid elevations; over any nonempty value
list, `statsOf` reports the rounded minimum (an element below all
others), the rounded maximum, the rounded arithmetic mean `sum/count`,
the median of the ascending sorted permutation (average of the two
middle values for even counts), the rounded square root of the
population variance (sum of squared deviations divided by the count, not
count−1), and the exact count; and the spec's worked example
`[[0,10],[20,30]]` yields exactly
`{min: 0, max: 30, mean: 15, median: 15, stddev: 11.18, count: 4}`. -/
theorem c3_statistics (d : JsVal) (r : TransformResult) (l : List ℚ)
    (hl : l ≠ []) :
    (transformDemData d = some r →
      r.statistics = statsOf (validElevationsOf d)) ∧
    (minOf l ∈ l ∧ ∀ x ∈ l, minOf l ≤ x) ∧
    (maxOf l ∈ l ∧ ∀ x ∈ l, x ≤ maxOf l) ∧
    (statsOf l).min = round2 (minOf l) ∧
    (statsOf l).max = round2 (maxOf l) ∧
    (statsOf l).mean = round2 (l.sum / l.length) ∧
    (List.Sorted (· ≤ ·) (sortedOf l) ∧ (sortedOf l).Perm l) ∧
    (statsOf l).median = round2 (medianOf l) ∧
    (statsOf l).stddev =
      sqrtRound2 ((l.map (fun v => (v - l.sum / l.length) ^ 2)).sum / l.length) ∧
    (statsOf l).count = l.length ∧
    (transformDemData demoGrid).map (fun x => x.statistics) =
      some { min := 0, max := 30, mean := 15, median := 15, stddev := 1118/100,
             count := 4, units := "meters" } := by
  obtain ⟨a, t, rfl⟩ : ∃ a t, l = a :: t := by
    cases l with
    | nil => exact absurd rfl hl
    | cons a t => exact ⟨a, t, rfl⟩
  refine ⟨fun ht => (transform_statistics ht).1, ⟨?_, ?_⟩, ⟨?_, ?_⟩, rfl, rfl,
    ?_, ⟨?_, ?_⟩, rfl, ?_, rfl, ?_⟩
  · exact foldl_min_mem t a
  · intro x hx
    rcases List.mem_cons.mp hx with h | h
    · subst h
      exact foldl_min_le_init t x
    · exact foldl_min_le_mem t a x h
  · exact foldl_max_mem t a
  · intro x hx
    rcases List.mem_cons.mp hx with h | h
    · subst h
      exact le_foldl_max_init t x
    · exact mem_le_foldl_max t a x h
  · show round2 (meanOf (a :: t)) = _
    rw [meanOf, sumOf_eq_sum]
  · exact List.sorted_insertionSort _ _
  · exact List.perm_insertionSort _ _
  · show sqrtRound2 (varianceOf (a :: t)) = _
    rw [varianceOf, foldl_sq_dev, meanOf, sumOf_eq_sum]
  · exact demoGrid_statistics

/-- Witness for C3 at the singleton list `[3]`. -/
theorem c3_statistics_witness :
    ([(3 : ℚ)] ≠ []) ∧ (statsOf [(3 : ℚ)]).count = [(3 : ℚ)].length :=
  ⟨by simp,
   (c3_statistics .null emptyResult [3] (by simp)).2.2.2.2.2.2.2.2.2.1⟩

/-- Rounding to 2 decimal places maps the open validity interval into
the closed interval (the boundary is attainable: `9999.999 ↦ 10000`). -/
theorem round2_bounds {q : ℚ} (h1 : -1000 < q) (h2 : q < 10000) :
    -1000 ≤ round2 q ∧ round2 q ≤ 10000 := by
  unfold round2 jsMathRound
  constructor
  · have hf : (-100000 : ℤ) ≤ ⌊q * 100 + 1/2⌋ := by
      refine Int.le_floor.mpr ?_
      push_cast
      linarith
    have hc : (-100000 : ℚ) ≤ ((⌊q * 100 + 1/2⌋ : ℤ) : ℚ) := by
      exact_mod_cast hf
    linarith
  · have hf : ⌊q * 100 + 1/2⌋ < 1000001 := by
      refine Int.floor_lt.mpr ?_
      push_cast
      linarith
    have hf2 : ⌊q * 100 + 1/2⌋ ≤ 1000000 := by omega
    have hc : ((⌊q * 100 + 1/2⌋ : ℤ) : ℚ) ≤ 1000000 := by
      exact_mod_cast hf2
    linarith

/-- A collected pair carries an elevation rounded from a value strictly
inside the validity interval, so the stored value lies in the closed
interval. -/
theorem cellEntry_elevation_bounds {xV yV : JsVal} {yIdx xIdx : ℕ}
    {cell : JsVal} {pr : DemPoint × ℚ}
    (h : cellEntry xV yV yIdx xIdx cell = some pr) :
    -1000 ≤ pr.1.elevation ∧ pr.1.elevation ≤ 10000 := by
  unfold cellEntry at h
  by_cases hv : isValidElevation cell = true
  · rw [if_pos hv] at h
    cases cell with
    | num q =>
      cases hlx : jsLen xV with
      | some lx =>
        cases hly : jsLen yV with
        | some ly =>
          rw [hlx, hly] at h
          simp only at h
          by_cases hidx : xIdx < lx ∧ yIdx < ly
          · rw [if_pos hidx] at h
            have hq : -1000 < q ∧ q < 10000 := by
              simp [isValidElevation] at hv
              tauto
            have hpr : pr.1.elevation = round2 q := by
              have := Option.some_inj.mp h
              rw [← this]
            exact hpr ▸ round2_bounds hq.1 hq.2
          · rw [if_neg hidx] at h
            exact absurd h (by simp)
        | none => rw [hlx, hly] at h; exact absurd h (by simp)
      | none =>
        rw [hlx] at h
        cases hly : jsLen yV with
        | some ly => rw [hly] at h; exact absurd h (by simp)
        | none => rw [hly] at h; exact absurd h (by simp)
    | undefined => exact absurd h (by simp)
    | null => exact absurd h (by simp)
    | nan => exact absurd h (by simp)
    | inf => exact absurd h (by simp)
    | ninf => exact absurd h (by simp)
    | bool b => exact absurd h (by simp)
    | str s => exact absurd h (by simp)
    | arr xs => exact absurd h (by simp)
    | obj kvs => exact absurd h (by simp)
  · rw [if_neg hv] at h
    exact absurd h (by simp)

/-- Every pair of the collection loop comes from a successful
`cellEntry`. -/
theorem collectGrid_mem {xV yV : JsVal} {rows : List JsVal}
    {pr : DemPoint × ℚ} (h : pr ∈ collectGrid xV yV rows) :
    ∃ yIdx xIdx cell, cellEntry xV yV yIdx xIdx cell = some pr := by
  unfold collectGrid at h
  rcases List.mem_flatMap.mp h with ⟨yr, hyr, hmem⟩
  cases hc : yr.2 with
  | arr row =>
    rw [hc] at hmem
    simp only at hmem
    rcases List.mem_filterMap.mp hmem with ⟨xc, hxc, heq⟩
    exact ⟨yr.1, xc.1, xc.2, heq⟩
  | undefined => rw [hc] at hmem; simp at hmem
  | null => rw [hc] at hmem; simp at hmem
  | nan => rw [hc] at hmem; simp at hmem
  | inf => rw [hc] at hmem; simp at hmem
  | ninf => rw [hc] at hmem; simp at hmem
  | bool b => rw [hc] at hmem; simp at hmem
  | num q => rw [hc] at hmem; simp at hmem
  | str s => rw [hc] at hmem; simp at hmem
  | obj kvs => rw [hc] at hmem; simp at hmem

/-- When the transformer succeeds, the points and the count both come
from the collected pair list. -/
theorem transform_points {d : JsVal} {r : TransformResult}
    (ht : transformDemData d = some r) :
    ∃ pairs : List (DemPoint × ℚ),
      r.points = pairs.map Prod.fst ∧
      r.statistics.count = pairs.length ∧
      ∀ pr ∈ pairs, ∃ yIdx xIdx cell xV yV,
        cellEntry xV yV yIdx xIdx cell = some pr := by
  unfold transformDemData at ht
  by_cases h1 : jsFalsy d = true
  · simp [h1] at ht
  · simp only [h1, Bool.false_eq_true, if_false] at ht
    by_cases h2 : jsFalsy (getField d "data") = true
    · simp [h2] at ht
    · simp only [h2, Bool.false_eq_true, if_false] at ht
      cases hdata : getField d "data" with
      | arr bands =>
        rw [hdata] at ht
        cases bands with
        | nil => exact absurd ht (by simp [List.headD])
        | cons b bs =>
          cases hb : b with
          | arr rows =>
            subst hb
            simp only [List.headD] at ht
            by_cases h3 : (jsLenIsZero (jsOr (getField (getField (getField d "coords") "x") "data") (.arr [])) ||
                jsLenIsZero (jsOr (getField (getField (getField d "coords") "y") "data") (.arr []))) = true
            · simp [h3] at ht
            · simp only [h3, Bool.false_eq_true, if_false] at ht
              by_cases h4 : (List.map Prod.snd
                  (collectGrid (jsOr (getField (getField (getField d "coords") "x") "data") (.arr []))
                    (jsOr (getField (getField (getField d "coords") "y") "data") (.arr [])) rows)).length = 0
              · simp [h4] at ht
              · simp only [h4, if_false] at ht
                refine ⟨collectGrid
                    (jsOr (getField (getField (getField d "coords") "x") "data") (.arr []))
                    (jsOr (getField (getField (getField d "coords") "y") "data") (.arr [])) rows,
                  ?_, ?_, ?_⟩
                · rw [← Option.some_inj.mp ht]
                · rw [← Option.some_inj.mp ht]
                  simp [statsOf]
                · intro pr hpr
                  rcases collectGrid_mem hpr with ⟨yIdx, xIdx, cell, hc⟩
                  exact ⟨yIdx, xIdx, cell, _, _, hc⟩
          | undefined => subst hb; simp [List.headD] at ht
          | null => subst hb; simp [List.headD] at ht
          | nan => subst hb; simp [List.headD] at ht
          | inf => subst hb; simp [List.headD] at ht
          | ninf => subst hb; simp [List.headD] at ht
          | bool bv => subst hb; simp [List.headD] at ht
          | num q => subst hb; simp [List.headD] at ht
          | str s2 => subst hb; simp [List.headD] at ht
          | obj kvs => subst hb; simp [List.headD] at ht
      | undefined => rw [hdata] at ht; simp at ht
      | null => rw [hdata] at ht; simp at ht
      | nan => rw [hdata] at ht; simp at ht
      | inf => rw [hdata] at ht; simp at ht
      | ninf => rw [hdata] at ht; simp at ht
      | bool b => rw [hdata] at ht; simp at ht
      | num q => rw [hdata] at ht; simp at ht
      | str s => rw [hdata] at ht; simp at ht
      | obj kvs => rw [hdata] at ht; simp at ht

/-- Valid elevations of the boundary grid. -/
theorem boundaryGrid_collect :
    collectGrid (.arr [.num 0]) (.arr [.num 0]) [.arr [.num (9999999/1000)]] =
      [({ x := .num 0, y := .num 0, elevation := 10000 }, 9999999/1000)] := by
  norm_num [collectGrid, List.enum, List.enumFrom, cellEntry, isValidElevation,
    List.filterMap_cons, jsLen, jsIndex, jsRound6, jsToNumber, round6,
    jsMathRound, round2]

/-- Statistics of the single boundary value. -/
theorem boundary_statsOf :
    statsOf [9999999/1000] =
      { min := 10000, max := 10000, mean := 10000, median := 10000,
        stddev := 0, count := 1, units := "meters" } := by
  norm_num [statsOf, minOf, maxOf, meanOf, sumOf, medianOf, sortedOf,
    varianceOf, List.insertionSort, List.orderedInsert, round2, jsMathRound]
  rw [sqrtRound2]
  norm_num

/-- The boundary response transforms successfully, and its single point
stores the elevation `10000` exactly. -/
theorem boundaryGrid_transform :
    transformDemData boundaryGrid =
      some
        { points := [{ x := .num 0, y := .num 0, elevation := 10000 }]
          statistics :=
            { min := 10000, max := 10000, mean := 10000, median := 10000,
              stddev := 0, count := 1, units := "meters" }
          metadata :=
            { width := 1, height := 1, minX := .num 0, maxX := .num 0,
              minY := .num 0, maxY := .num 0, crs := .str "Unknown" } } := by
  have hdata : getField boundaryGrid "data" =
      .arr [.arr [.arr [.num (9999999/1000)]]] := rfl
  have hx : jsOr (getField (getField (getField boundaryGrid "coords") "x") "data")
      (.arr []) = .arr [.num 0] := rfl
  have hy : jsOr (getField (getField (getField boundaryGrid "coords") "y") "data")
      (.arr []) = .arr [.num 0] := rfl
  have hattrs : jsOr (getField (getField boundaryGrid "attrs") "crs")
      (.str "Unknown") = .str "Unknown" := rfl
  unfold transformDemData
  rw [hdata, hx, hy, hattrs]
  norm_num [boundaryGrid, jsFalsy, jsLenIsZero, jsLen, List.headD,
    boundaryGrid_collect, boundary_statsOf, jsMinList, jsMaxList, jsToNumber,
    List.mapM_cons, List.mapM_nil]
  exact ⟨rfl, rfl, rfl, rfl⟩

/-- C10 (amended): on every successful transform the number of points
equals the reported count, and every stored (rounded) elevation lies in
the closed interval `[-1000, 10000]`; the pre-rounding value is strictly
inside, but rounding can reach the endpoint. -/
theorem c10_points_invariant (d : JsVal) (r : TransformResult)
    (ht : transformDemData d = some r) :
    r.points.length = r.statistics.count ∧
    ∀ p ∈ r.points, -1000 ≤ p.elevation ∧ p.elevation ≤ 10000 := by
  obtain ⟨pairs, hp, hc, hm⟩ := transform_points ht
  constructor
  · rw [hp, hc, List.length_map]
  · intro p hpm
    rw [hp] at hpm
    rcases List.mem_map.mp hpm with ⟨pr, hpr, hfst⟩
    rcases hm pr hpr with ⟨yIdx, xIdx, cell, xV, yV, hcell⟩
    have := cellEntry_elevation_bounds hcell
    rw [hfst] at this
    exact this

/-- Counterexample to C10 as stated: the valid elevation `9999.999`
rounds to exactly `10000`, so the stored elevation of the resulting
point is not strictly below `10000`. -/
theorem c10_counterexample :
    (transformDemData boundaryGrid).map
        (fun r => r.points.map (fun p => decide (p.elevation < 10000))) =
      some [false] := by
  rw [boundaryGrid_transform]
  norm_num

/-- Witness for C10 at the boundary grid. -/
theorem c10_points_invariant_witness :
    transformDemData boundaryGrid =
      some
        { points := [{ x := .num 0, y := .num 0, elevation := 10000 }]
          statistics :=
            { min := 10000, max := 10000, mean := 10000, median := 10000,
              stddev := 0, count := 1, units := "meters" }
          metadata :=
            { width := 1, height := 1, minX := .num 0, maxX := .num 0,
              minY := .num 0, maxY := .num 0, crs := .str "Unknown" } } ∧
    ([{ x := JsVal.num 0, y := JsVal.num 0, elevation := (10000 : ℚ) }] :
        List DemPoint).length = 1 :=
  ⟨boundaryGrid_transform,
   by
    have h := (c10_points_invariant boundaryGrid _ boundaryGrid_transform).1
    simp at h
    simp [h]⟩

/-- The running min/max fold of the source agrees componentwise with the
spec's min/max description, for any accumulator. -/
theorem bboxFold_eq (ps : List (ℚ × ℚ)) :
    ∀ w s e n : ℚ,
      ps.foldl bboxStep ⟨w, s, e, n⟩ =
        ⟨(ps.map Prod.fst).foldl min w, (ps.map Prod.snd).foldl min s,
         (ps.map Prod.fst).foldl max e, (ps.map Prod.snd).foldl max n⟩ := by
  induction ps with
  | nil => intro w s e n; rfl
  | cons p t ih =>
    intro w s e n
    rw [List.foldl_cons, List.map_cons, List.map_cons, List.foldl_cons,
      List.foldl_cons, List.foldl_cons, List.foldl_cons]
    have hstep : bboxStep ⟨w, s, e, n⟩ p =
        ⟨min w p.1, min s p.2, max e p.1, max n p.2⟩ := by
      unfold bboxStep
      congr 1
      · rcases lt_or_ge p.1 w with h | h
        · simp [h, min_eq_right (le_of_lt h)]
        · simp [not_lt.mpr h, min_eq_left h]
      · rcases lt_or_ge p.2 s with h | h
        · simp [h, min_eq_right (le_of_lt h)]
        · simp [not_lt.mpr h, min_eq_left h]
      · rcases lt_or_ge e p.1 with h | h
        · simp [h, max_eq_right (le_of_lt h)]
        · simp [not_lt.mpr h, max_eq_left h]
      · rcases lt_or_ge n p.2 with h | h
        · simp [h, max_eq_right (le_of_lt h)]
        · simp [not_lt.mpr h, max_eq_left h]
    rw [hstep]
    exact ih (min w p.1) (min s p.2) (max e p.1) (max n p.2)

/-- A min-fold stays below a max-fold started at a larger seed. -/
theorem foldl_min_le_foldl_max (l : List ℚ) :
    ∀ a b : ℚ, a ≤ b → l.foldl min a ≤ l.foldl max b := by
  induction l with
  | nil => intro a b h; simpa using h
  | cons x t ih =>
    intro a b h
    rw [List.foldl_cons, List.foldl_cons]
    refine ih (min a x) (max b x) ?_
    calc min a x ≤ x := min_le_right a x
    _ ≤ max b x := le_max_right b x

/-- C4: for a ring of at least 3 points the bounding box is the
componentwise min/max of the coordinates (hence `west ≤ east` and
`south ≤ north`); a ring value with fewer than 3 points, or one
containing a non-finite coordinate, fails schema validation. -/
theorem c4_bounding_box (ring : List (ℚ × ℚ)) (pts : List JsVal) :
    (3 ≤ ring.length →
      bboxFromPolygon [ring] = ringBBoxSpec ring ∧
      bboxOK (bboxFromPolygon [ring]) = true) ∧
    (pts.length < 3 → linearRingOK (.arr pts) = false) ∧
    ((∃ p ∈ pts, ∃ xs, p = JsVal.arr xs ∧
        (JsVal.nan ∈ xs ∨ JsVal.inf ∈ xs ∨ JsVal.ninf ∈ xs)) →
      linearRingOK (.arr pts) = false) := by
  refine ⟨?_, ?_, ?_⟩
  · intro h3
    obtain ⟨p, ps, rfl⟩ : ∃ p ps, ring = p :: ps := by
      cases ring with
      | nil => simp at h3
      | cons p ps => exact ⟨p, ps, rfl⟩
    have heq : bboxFromPolygon [p :: ps] = ringBBoxSpec (p :: ps) := by
      unfold bboxFromPolygon ringBBoxSpec
      simp only [List.headD]
      rw [bboxFold_eq]
    refine ⟨heq, ?_⟩
    rw [heq]
    unfold ringBBoxSpec bboxOK
    simp only
    rw [Bool.and_eq_true, decide_eq_true_eq, decide_eq_true_eq]
    exact ⟨foldl_min_le_foldl_max _ _ _ le_rfl,
      foldl_min_le_foldl_max _ _ _ le_rfl⟩
  · intro hlen
    unfold linearRingOK
    have : ¬ (3 ≤ pts.length) := by omega
    simp [this]
  · rintro ⟨p, hp, xs, rfl, hbad⟩
    unfold linearRingOK
    have hpair : coordinatePairOK (.arr xs) = false := by
      unfold coordinatePairOK
      have : xs.all joiNumberOK = false := by
        rw [List.all_eq_false]
        rcases hbad with h | h | h
        · exact ⟨.nan, h, by simp [joiNumberOK]⟩
        · exact ⟨.inf, h, by simp [joiNumberOK]⟩
        · exact ⟨.ninf, h, by simp [joiNumberOK]⟩
      simp [this]
    have : pts.all coordinatePairOK = false := by
      rw [List.all_eq_false]
      exact ⟨.arr xs, hp, by simp [hpair]⟩
    simp [this]

/-- Witness for C4 at the triangle `(0,0), (2,1), (1,3)` and a 2-point
ring. -/
theorem c4_bounding_box_witness :
    3 ≤ ([((0 : ℚ), (0 : ℚ)), (2, 1), (1, 3)] : List (ℚ × ℚ)).length ∧
    bboxFromPolygon [[((0 : ℚ), (0 : ℚ)), (2, 1), (1, 3)]] =
      ringBBoxSpec [((0 : ℚ), (0 : ℚ)), (2, 1), (1, 3)] ∧
    bboxOK (bboxFromPolygon [[((0 : ℚ), (0 : ℚ)), (2, 1), (1, 3)]]) = true ∧
    linearRingOK (.arr [.arr [.num 0, .num 0], .arr [.num 1, .num 1]]) = false := by
  have h3 : 3 ≤ ([((0 : ℚ), (0 : ℚ)), (2, 1), (1, 3)] : List (ℚ × ℚ)).length := by
    simp
  obtain ⟨heq, hok⟩ := (c4_bounding_box [((0 : ℚ), (0 : ℚ)), (2, 1), (1, 3)] []).1 h3
  refine ⟨h3, heq, hok, ?_⟩
  exact (c4_bounding_box [] [.arr [.num 0, .num 0], .arr [.num 1, .num 1]]).2.1
    (by simp)

/-- C5 (amended): a call that finds a stored nonempty token with a
nonzero expiry in the future returns the cached token, changes no state
and issues no network request; otherwise the call issues exactly two
network requests — the capabilities probe and exactly one token POST —
stores the received token prefixed with `oidc/CDSE/`, and sets the
stored expiry to `now + 55` minutes. -/
theorem c5_token_cache (st : TokenState) (now : ℤ) (fetched t : String)
    (e : ℤ) :
    (st.accessToken = some t → st.tokenExpiry = some e → t ≠ "" → e ≠ 0 →
      now < e → getAccessToken st now fetched = ⟨t, st, []⟩) ∧
    (tokenCacheHit st now = false →
      getAccessToken st now fetched =
        ⟨"oidc/CDSE/" ++ fetched,
         ⟨some ("oidc/CDSE/" ++ fetched), some (now + 55 * 60 * 1000)⟩,
         [.capabilities, .tokenPost]⟩ ∧
      (getAccessToken st now fetched).trace.length = 2 ∧
      (getAccessToken st now fetched).trace.count .tokenPost = 1) := by
  constructor
  · intro h1 h2 h3 h4 h5
    have hhit : tokenCacheHit st now = true := by
      unfold tokenCacheHit
      rw [h1, h2]
      simp [h3, h4, h5]
    unfold getAccessToken
    rw [if_pos hhit, h1]
    rfl
  · intro hmiss
    unfold getAccessToken
    rw [if_neg (by rw [hmiss]; simp)]
    refine ⟨rfl, rfl, rfl⟩

/-- Counterexample to C5 as stated: starting from the empty state, a
call issues two network requests (the capabilities probe and the token
POST), not exactly one. -/
theorem c5_counterexample :
    (getAccessToken ⟨none, none⟩ 0 "tok").trace.length ≠ 1 := by
  norm_num [getAccessToken, tokenCacheHit]

/-- Witness for C5: the cached path at a valid state and the refresh
path at the empty state. -/
theorem c5_token_cache_witness :
    getAccessToken ⟨some "oidc/CDSE/x", some 100⟩ 50 "y" =
      ⟨"oidc/CDSE/x", ⟨some "oidc/CDSE/x", some 100⟩, []⟩ ∧
    getAccessToken ⟨none, none⟩ 0 "tok" =
      ⟨"oidc/CDSE/tok", ⟨some "oidc/CDSE/tok", some 3300000⟩,
       [.capabilities, .tokenPost]⟩ := by
  constructor
  · exact (c5_token_cache ⟨some "oidc/CDSE/x", some 100⟩ 50 "y" "oidc/CDSE/x" 100).1
      rfl rfl (by simp) (by norm_num) (by norm_num)
  · have h := (c5_token_cache ⟨none, none⟩ 0 "tok" "" 0).2 (by rfl)
    have h2 := h.1
    norm_num at h2 ⊢
    exact h2

/-- The first match of the candidate filter is the head of the filtered
list. -/
theorem find_eq_head_filter {α : Type} (p : α → Bool) (l : List α) :
    l.find? p = (l.filter p).head? := by
  induction l with
  | nil => rfl
  | cons a t ih =>
    by_cases h : p a = true
    · rw [List.find?_cons_of_pos _ h, List.filter_cons_of_pos h]
      rfl
    · rw [List.find?_cons_of_neg _ (by simp [h]),
        List.filter_cons_of_neg (by simp [h]), ih]

/-- C6: the resolver returns the fixed fallback when the catalog fetch
fails or the catalog is empty; when a well-known DEM id is present the
first such id (in the fixed order) wins, bypassing keyword search; when
none is present, the result is the first catalog entry (in catalog
order) passing the elevation-keyword/no-vegetation filter, or the fixed
fallback when there is none; and a catalog containing
`COPERNICUS/DEM/GLO-30` resolves a `GLO-30` request to that id. -/
theorem c6_collection_resolver (product : String) (l : List CatalogEntry)
    (t : String) :
    (resolveDemCollectionId product none = some "USGS/SRTMGL1_003") ∧
    (knownDemIds.find? (fun tid => l.any (fun c => c.id == some tid)) = some t →
      resolveDemCollectionId product (some l) = some t) ∧
    ((∀ tid ∈ knownDemIds, l.any (fun c => c.id == some tid) = false) →
      resolveDemCollectionId product (some l) =
        (match l.find? demCandidate with
         | some c => c.id
         | none => some "USGS/SRTMGL1_003")) ∧
    (resolveDemCollectionId product (some []) = some "USGS/SRTMGL1_003") ∧
    (resolveDemCollectionId "GLO-30"
        (some [⟨some "COPERNICUS/DEM/GLO-30", none, none⟩]) =
      some "COPERNICUS/DEM/GLO-30") := by
    have hred : resolveDemCollectionId product (some l) =
        match List.find? (fun tid => l.any fun c => c.id == some tid)
            knownDemIds with
        | some tid => some tid
        | none =>
          match (l.filter demCandidate).head? with
          | some c => c.id
          | none => some "USGS/SRTMGL1_003" := rfl
    refine ⟨rfl, ?_, ?_, rfl, ?_⟩
    · intro hfind
      rw [hred, hfind]
    · intro hnone
      have hfn : List.find? (fun tid => l.any fun c => c.id == some tid)
          knownDemIds = none := by
        rw [List.find?_eq_none]
        intro x hx
        simp [hnone x hx]
      rw [hred, hfn, find_eq_head_filter]
    · simp [resolveDemCollectionId, knownDemIds, List.find?]

/-- Witness for C6: a catalog whose only known id is the Copernicus
GLO-30 collection. -/
theorem c6_collection_resolver_witness :
    knownDemIds.find?
        (fun tid => [(⟨some "COPERNICUS/DEM/GLO-30", none, none⟩ : CatalogEntry)].any
          (fun c => c.id == some tid)) = some "COPERNICUS/DEM/GLO-30" ∧
    resolveDemCollectionId "GLO-30"
        (some [⟨some "COPERNICUS/DEM/GLO-30", none, none⟩]) =
      some "COPERNICUS/DEM/GLO-30" := by
  have hfind : knownDemIds.find?
      (fun tid => [(⟨some "COPERNICUS/DEM/GLO-30", none, none⟩ : CatalogEntry)].any
        (fun c => c.id == some tid)) = some "COPERNICUS/DEM/GLO-30" := by
    simp [knownDemIds, List.find?]
  exact ⟨hfind,
    (c6_collection_resolver "GLO-30"
      [⟨some "COPERNICUS/DEM/GLO-30", none, none⟩] "COPERNICUS/DEM/GLO-30").2.1
      hfind⟩

/-- C7: a request whose start date is strictly later than its end date
fails the NDVI schema validation; a request with equal dates (and valid
coordinates) passes it. -/
theorem c7_date_validation (s e : ℤ) (c : JsVal) :
    (s > e → ndviValidate (some s) (some e) (some c) = false) ∧
    (s = e → coordinatesOK c = true → ndviValidate (some s) (some e) (some c) = true) := by
  constructor
  · intro h
    unfold ndviValidate
    simp [h]
  · intro h hc
    subst h
    unfold ndviValidate
    simp [hc]

/-- Witness for C7 at the dates of the spec's test case. -/
theorem c7_date_validation_witness :
    ndviValidate (some 2) (some 1) (some goodCoords) = false ∧
    ndviValidate (some 1) (some 1) (some goodCoords) = true := by
  have hc : coordinatesOK goodCoords = true := rfl
  exact ⟨(c7_date_validation 2 1 goodCoords).1 (by norm_num),
    (c7_date_validation 1 1 goodCoords).2 rfl hc⟩

/-- C8: the DEM request schema, as written, rejects any body carrying a
`format` field (Joi's default unknown-key rejection), including the
documented `format: "JSON"` body, while the same body without `format`
passes; the route handler and the README both expect `format` to be
accepted, so the schema contradicts the route's own code. -/
theorem c8_schema_rejects_format :
    demValidate demBodyWithFormat = false ∧
    demValidate demBodyNoFormat = true := by
  constructor
  · rfl
  · rfl

/-- C9: sanitizing the spec's example document and parsing yields the
object with both fields `null`; and on any document with no `NaN` and no
`Infinity` token, sanitization is the identity, so sanitize-then-parse
agrees with plain parsing. -/
theorem c9_sanitize_roundtrip (s : String) :
    (parseJson (sanitizeJson "\x7b\"a\": NaN, \"b\": Infinity\x7d") =
      some (.obj [("a", .null), ("b", .null)])) ∧
    (strIncludes s "NaN" = false → strIncludes s "Infinity" = false →
      parseJson (sanitizeJson s) = parseJson s) := by
  constructor
  · rfl
  · intro h1 h2
    rw [sanitizeJson_id h1 h2]

/-- Witness for C9 on a token-free document. -/
theorem c9_sanitize_roundtrip_witness :
    strIncludes "\x7b\"a\": 1\x7d" "NaN" = false ∧
    strIncludes "\x7b\"a\": 1\x7d" "Infinity" = false ∧
    parseJson (sanitizeJson "\x7b\"a\": 1\x7d") = parseJson "\x7b\"a\": 1\x7d" := by
  refine ⟨rfl, rfl, ?_⟩
  exact (c9_sanitize_roundtrip "\x7b\"a\": 1\x7d").2 rfl rfl

